import Mathlib

/-!
Shallow embedding of the streamlit-searchbox frontend component
(src/streamlit_searchbox/frontend/src/Searchbox.tsx): the per-instance
controller (callbackSearch with its debounce timers, callbackReset,
callbackSubmit) and the global aggregator (streamlitReturnGlobalFn),
together with theorems about the properties the component is claimed
to satisfy.
-/

namespace Searchbox

/-- A string value that may be the JS `undefined`: `none` models `undefined`. -/
abbrev JStr := Option String

/-- JS string coercion as it happens in `a + " " + b`: `undefined` renders as
the text `undefined`. -/
def JStr.toJs : JStr → String
  | some s => s
  | none => "undefined"

/-- `type Option = { value: string; label: string }` from the source; named
`Opt` because `Option` is taken in Lean. -/
structure Opt where
  value : String
  label : String
deriving DecidableEq, Repr

/-- The argument react-select hands to `callbackSubmit`: statically typed as a
single option in the source, but it actually holds an array of options exactly
when the instance has `is_multi` set (the source casts with `as any as
Option[]`). The embedding couples the multiplicity flag with the shape of the
argument. -/
inductive OptArg
  | one (o : Opt)
  | many (l : List Opt)
deriving DecidableEq, Repr

/-- Whether the submit argument is the multi-select shape, i.e. the `is_multi`
flag of the instance it comes from. -/
def OptArg.is_multi : OptArg → Bool
  | .one _ => false
  | .many _ => true

/-- JS reading of `option.label`: defined on a single option, `undefined` on an
array. -/
def OptArg.labelAttr : OptArg → JStr
  | .one o => some o.label
  | .many _ => none

/-- The local `State` of one searchbox instance (interface State in the
source). `selectedOption` is `Option`-typed in the source but may hold the
multi-select array by the same cast as the submit argument, hence `Option
OptArg` here; `inputValue` may be the JS `undefined` after a multi-select
submit with edit mode `option`. -/
structure State where
  menu : Bool
  selectedOption : Option OptArg
  selectedOptionList : List Opt
  inputValue : JStr
deriving DecidableEq, Repr

/-- The interaction kinds of `StreamlitReturn` plus the header and footer
click kinds produced by the aggregator itself. -/
inductive Interaction
  | submit
  | search
  | reset
  | buttonClick
  | simpleValue
  | headerClick
  | footerClick
deriving DecidableEq, Repr

/-- The dynamic type of the `value` field of an interaction event and of one
slot of the aggregate value list: a string, an array of strings, `null`, or
`undefined`. -/
inductive Value
  | vstr (s : String)
  | vlist (l : List String)
  | vnull
  | vunset
deriving DecidableEq, Repr

/-- Emission to `streamlitReturnFn`: interaction kind plus value. -/
abbrev Emission := Interaction × Value

/-- Per-instance configuration fields used by `callbackSubmit`; the
multiplicity flag travels in the shape of the submit argument. -/
structure Cfg where
  clear_on_submit : Bool
  edit_after_submit : String
deriving DecidableEq, Repr

/-- The `switch (edit_after_submit)` of `callbackSubmit` computing the new
input text: starts from the empty string, `current` keeps the typed text,
`option` takes the label of the selected option, `concat` joins both with a
space (with JS coercion when the label is `undefined` in multi mode). -/
def editInput (mode : String) (arg : OptArg) (s : State) : JStr :=
  if mode = "current" then s.inputValue
  else if mode = "option" then arg.labelAttr
  else if mode = "concat" then some (s.inputValue.toJs ++ " " ++ arg.labelAttr.toJs)
  else some ""

/-- The value emitted by `callbackSubmit`: in multi mode the array of labels of
the selected options (`option.map(({label}) => label)`), otherwise the label
of the single selected option (`option.label`). -/
def submitEmission (arg : OptArg) : Value :=
  match arg with
  | .one o => .vstr o.label
  | .many l => .vlist (l.map Opt.label)

/-- `callbackSubmit` from the functional component (Searchbox.tsx lines
126-155): emits one submit event, then returns the new local state with
`menu: clear_on_submit ? false : true`, `inputValue: clear_on_submit &&
is_multi ? "" : input`, `selectedOption: option` and `selectedOptionList`
replaced only in multi mode. -/
def callbackSubmit (cfg : Cfg) (arg : OptArg) (s : State) : List Emission × State :=
  ([(.submit, submitEmission arg)],
   { menu := !cfg.clear_on_submit,
     inputValue := if cfg.clear_on_submit && arg.is_multi then some ""
                   else editInput cfg.edit_after_submit arg s,
     selectedOption := some arg,
     selectedOptionList := match arg with
       | .many l => l
       | .one _ => s.selectedOptionList })

/-- `callbackReset` (Searchbox.tsx lines 115-125): emits one reset event with
the empty string and returns the cleared state, ignoring the prior state. -/
def callbackReset (_s : State) : List Emission × State :=
  ([(.reset, .vstr "")],
   { menu := false,
     selectedOption := none,
     selectedOptionList := [],
     inputValue := some "" })

/-- The `setState` performed by `callbackSearch` (Searchbox.tsx lines
108-113): input text becomes the typed text, the single-mode selection is
nulled, the multi-mode selection list and the menu flag are carried over. -/
def searchSetState (input : String) (s : State) : State :=
  { inputValue := some input,
    selectedOption := none,
    selectedOptionList := s.selectedOptionList,
    menu := s.menu }

/-- One timer created by `setTimeout` inside `callbackSearch`: its id, the
absolute time its callback is due (creation time plus the debounce interval),
and whether it is still pending (`alive` is false once fired or passed to
`clearTimeout`). -/
structure Timer where
  id : Nat
  fireAt : Nat
  alive : Bool
deriving DecidableEq, Repr

/-- The record stored in the mutable ref `lastSearchUpdate.current`:
the latest typed text, and the id and creation timestamp of the timeout it
carries. -/
structure LSU where
  value : String
  tid : Nat
  tCreatedAt : Nat
deriving DecidableEq, Repr

/-- The state of one instance controller together with the JS timer queue it
uses: the widget `State`, the `lastSearchUpdate` ref, the timers created so
far, the next fresh timer id, and the log of the search emissions the timer
callbacks have made (in firing order; each carries
`lastSearchUpdate.current?.value` read at fire time). -/
structure SBState where
  widget : State
  lsu : Option LSU
  timers : List Timer
  nextId : Nat
  log : List JStr
deriving DecidableEq, Repr

/-- The initial controller state before any keystroke: empty ref, no timers,
nothing emitted. -/
def initSB (w : State) : SBState :=
  { widget := w, lsu := none, timers := [], nextId := 0, log := [] }

/-- `clearTimeout(id)`: the timer with that id no longer fires; a no-op if it
already fired. -/
def clearTimeoutF (i : Nat) (s : SBState) : SBState :=
  { s with timers := s.timers.map fun tm =>
      if tm.id = i then { tm with alive := false } else tm }

/-- Event-loop step: at time `t`, every pending timer whose due time has been
reached fires (in creation order, which is also due-time order here). Each
firing runs the `setTimeout` callback of `callbackSearch`, appending
`lastSearchUpdate.current?.value` to the emission log; firing does not change
the ref, so all timers due at once read the same value. -/
def fireDue (t : Nat) (s : SBState) : SBState :=
  { s with
    timers := s.timers.map fun tm =>
      if tm.alive && decide (tm.fireAt ≤ t) then { tm with alive := false } else tm,
    log := s.log ++
      (s.timers.filter fun tm => tm.alive && decide (tm.fireAt ≤ t)).map
        (fun _ => s.lsu.map LSU.value) }

/-- `callbackSearch` (Searchbox.tsx lines 81-114) run at time `now` with the
typed text `input` and debounce interval `d` (milliseconds): if the stored
timeout was created more than `d - 10` ms ago it is cancelled and a fresh
timer is scheduled `d` ms out; otherwise the stored timeout is kept and only
the text of the ref is refreshed; finally the widget state is updated. The
`d - 10` comparison is JS number arithmetic, hence computed in `Int`. -/
def callbackSearch (d : Nat) (now : Nat) (input : String) (s : SBState) : SBState :=
  match s.lsu with
  | some prev =>
      if (now : Int) - (prev.tCreatedAt : Int) > (d : Int) - 10 then
        let s1 := clearTimeoutF prev.tid s
        { s1 with
          timers := s1.timers ++ [⟨s1.nextId, now + d, true⟩],
          nextId := s1.nextId + 1,
          lsu := some ⟨input, s1.nextId, now⟩,
          widget := searchSetState input s1.widget }
      else
        { s with
          lsu := some ⟨input, prev.tid, prev.tCreatedAt⟩,
          widget := searchSetState input s.widget }
  | none =>
      { s with
        timers := s.timers ++ [⟨s.nextId, now + d, true⟩],
        nextId := s.nextId + 1,
        lsu := some ⟨input, s.nextId, now⟩,
        widget := searchSetState input s.widget }

/-- One keystroke `(t, text)` as the event loop sees it: timers due by time
`t` fire first, then the input-change handler runs `callbackSearch`. -/
def keystroke (d : Nat) (s : SBState) (ev : Nat × String) : SBState :=
  callbackSearch d ev.1 ev.2 (fireDue ev.1 s)

/-- After the last keystroke the event loop runs to quiescence: every still
pending timer fires (all read the final ref value). -/
def flush (s : SBState) : SBState :=
  { s with
    timers := s.timers.map fun tm => { tm with alive := false },
    log := s.log ++ (s.timers.filter Timer.alive).map (fun _ => s.lsu.map LSU.value) }

/-- Run a whole keystroke trace (time-ordered `(time, text)` pairs) from the
initial controller state and let all timers fire. -/
def runSearchTrace (d : Nat) (w : State) (ks : List (Nat × String)) : SBState :=
  flush (ks.foldl (keystroke d) (initSB w))

/-- The search events emitted by the debounce timers for a keystroke trace, in
order, each carrying the text read from the ref at fire time. -/
def searchEmissions (d : Nat) (w : State) (ks : List (Nat × String)) : List JStr :=
  (runSearchTrace d w ks).log

/-- A widget state with no text, no selection and the menu closed. -/
def idleState : State :=
  { menu := false, selectedOption := none, selectedOptionList := [], inputValue := some "" }

/-- Whether each keystroke of the trace happens strictly less than `d` ms
after the previous one. -/
def consecGapsLt (d : Nat) : List (Nat × String) → Bool
  | (t1, _) :: (t2, s2) :: rest =>
      decide (t2 - t1 < d) && consecGapsLt d ((t2, s2) :: rest)
  | _ => true

/-- The text of the last keystroke, starting from the text `v` of the first
one. -/
def lastText (v : String) (ks : List (Nat × String)) : String :=
  ks.foldl (fun _ p => p.2) v

/-- An interaction event as received by the aggregator: kind, value, and the
index of the originating instance (`-1` for header and footer clicks, hence
`Int`). -/
structure AggEvent where
  interaction : Interaction
  value : Value
  index : Int
deriving DecidableEq, Repr

/-- The aggregator `GlobalState`: the last action and one value slot per
configured instance. -/
structure GlobalState where
  action : Option AggEvent
  valueList : List Value
deriving DecidableEq, Repr

/-- JS truthiness of `v?.length` for a slot value: true for a nonempty string
or a nonempty array, false for the empty string, the empty array, `null`
(optional chaining yields `undefined`) and `undefined`. -/
def hasLength : Value → Bool
  | .vstr s => decide (s.length ≠ 0)
  | .vlist l => decide (l.length ≠ 0)
  | .vnull => false
  | .vunset => false

/-- JS array read `l[i]`: `undefined` when the index is negative or past the
end. -/
def jsGet (l : List Value) (i : Int) : Value :=
  if i < 0 then .vunset else l.getD i.toNat .vunset

/-- JS array write `l[i] = v`: a negative index becomes a plain property and
leaves the array entries untouched; an index past the end extends the array,
the holes reading back as `undefined`; otherwise the entry is replaced. -/
def jsAssign (l : List Value) (i : Int) (v : Value) : List Value :=
  if i < 0 then l
  else if i.toNat < l.length then l.set i.toNat v
  else l ++ List.replicate (i.toNat - l.length) .vunset ++ [v]

/-- JS `x ?? null`: `undefined` and `null` collapse to `null`, anything else
passes through. Applied to each `props.default` to build the initial value
list. -/
def nullishToNull : Value → Value
  | .vunset => .vnull
  | .vnull => .vnull
  | v => v

/-- The initial aggregator state (Searchbox.tsx lines 341-344): no action yet
and one slot per configured instance, `props.default ?? null`. -/
def initGlobal (defaults : List Value) : GlobalState :=
  { action := none, valueList := defaults.map nullishToNull }

/-- `streamlitReturnGlobalFn` (Searchbox.tsx lines 345-365): builds the new
global state (action is always the incoming event; the slot of the event
index is overwritten with the event value for submit and simple-value, and
with `prior?.length ? [] : null` for reset; all other kinds leave the slots
alone) and calls `Streamlit.setComponentValue` exactly once with it. The
second component of the result is the list of values pushed to the bridge
during the call. -/
def streamlitReturnGlobalFn (s : GlobalState) (input : AggEvent) :
    GlobalState × List GlobalState :=
  let newState : GlobalState :=
    if input.interaction = .submit ∨ input.interaction = .simpleValue then
      { action := some input,
        valueList := jsAssign s.valueList input.index input.value }
    else if input.interaction = .reset then
      { action := some input,
        valueList := jsAssign s.valueList input.index
          (if hasLength (jsGet s.valueList input.index) then .vlist [] else .vnull) }
    else
      { action := some input, valueList := s.valueList }
  (newState, [newState])

/-- One aggregator transition, keeping only the state. -/
def stepAgg (s : GlobalState) (e : AggEvent) : GlobalState :=
  (streamlitReturnGlobalFn s e).1

/-- The aggregator state after processing a sequence of events from the
initial state of a given configuration. -/
def runAggregator (defaults : List Value) (events : List AggEvent) : GlobalState :=
  events.foldl stepAgg (initGlobal defaults)

/-- The events the wiring can deliver to the aggregator for `n` configured
instances: instance events carry the index of their `SearchBoxFnRenderer`
(one per configuration entry, so within range), header and footer clicks
carry `-1`. -/
def WellFormedEvent (n : Nat) (e : AggEvent) : Prop :=
  match e.interaction with
  | .headerClick | .footerClick => e.index = -1
  | _ => 0 ≤ e.index ∧ e.index < (n : Int)

instance (n : Nat) (e : AggEvent) : Decidable (WellFormedEvent n e) := by
  unfold WellFormedEvent
  split <;> infer_instance

/-- The slot shape prescribed by the multiplicity flag of an instance: an
array of strings in multi mode, a string or `null` in single mode. -/
def shapeMatchesB : Bool → Value → Bool
  | true, .vlist _ => true
  | true, _ => false
  | false, .vstr _ => true
  | false, .vnull => true
  | false, _ => false

/-- The shapes a slot can actually take: the prescribed shape, or the two
empty representations the reset handling writes regardless of multiplicity
(`null` and the empty array). -/
def looseShape (m : Bool) (v : Value) : Bool :=
  shapeMatchesB m v || decide (v = .vnull) || decide (v = .vlist [])

/-! ## Theorems about the instance controller callbacks -/

/-- C6: selecting commits exactly one submit event whose value is the label of
the selected option in single-select mode and the ordered list of the labels
of the selected options in multi-select mode. -/
theorem C6_submit_value (cfg : Cfg) (arg : OptArg) (s : State) :
    (callbackSubmit cfg arg s).1 =
      [(.submit, match arg with
        | .one o => Value.vstr o.label
        | .many l => Value.vlist (l.map Opt.label))] := by
  cases arg <;> rfl

/-- C7: clearing the control emits exactly one reset event carrying the empty
value, and returns the local state to no text, no selection in either mode,
and menu closed. -/
theorem C7_reset_semantics (s : State) :
    (callbackReset s).1 = [(.reset, .vstr "")] ∧
      (callbackReset s).2 =
        { menu := false, selectedOption := none,
          selectedOptionList := [], inputValue := some "" } :=
  ⟨rfl, rfl⟩

/-- C9: a search keystroke sets the input text to the typed text and nulls the
single-mode selection, while the multi-mode selection list and the menu flag
are unchanged (and the timer bookkeeping alone touches the rest). -/
theorem C9_search_frame (d now : Nat) (input : String) (s : SBState) :
    (callbackSearch d now input s).widget =
      { inputValue := some input,
        selectedOption := none,
        selectedOptionList := s.widget.selectedOptionList,
        menu := s.widget.menu } := by
  unfold callbackSearch
  cases s.lsu with
  | none => rfl
  | some prev =>
      by_cases h : (now : Int) - (prev.tCreatedAt : Int) > (d : Int) - 10 <;>
        simp [h, clearTimeoutF, searchSetState]

/-- C3 as stated is false on the code: with submit-clear set, single-select
mode and edit mode concat, typing `foo` and selecting the option labelled
`Bar` leaves the displayed text `foo Bar` (not the empty string) and the
selection set to the chosen option (the clear branch only empties the text in
multi mode). -/
theorem C3_counterexample :
    (callbackSubmit ⟨true, "concat"⟩ (.one ⟨"x", "Bar"⟩)
        { menu := true, selectedOption := none, selectedOptionList := [],
          inputValue := some "foo" }).2.inputValue = some "foo Bar" ∧
    (callbackSubmit ⟨true, "concat"⟩ (.one ⟨"x", "Bar"⟩)
        { menu := true, selectedOption := none, selectedOptionList := [],
          inputValue := some "foo" }).2.inputValue ≠ some "" ∧
    (callbackSubmit ⟨true, "concat"⟩ (.one ⟨"x", "Bar"⟩)
        { menu := true, selectedOption := none, selectedOptionList := [],
          inputValue := some "foo" }).2.selectedOption ≠ none := by
  refine ⟨rfl, ?_, ?_⟩ <;> decide

/-- C3 amended: when the submit-clear flag is set, committing a submit closes
the menu, and resets the displayed text only for a multi-select instance; a
single-select instance keeps the text dictated by the post-submit edit mode
(for concat, the typed text joined to the label) and the selection becomes
the submitted option. -/
theorem C3_amended_clear_on_submit (cfg : Cfg) (arg : OptArg) (s : State)
    (h : cfg.clear_on_submit = true) :
    (callbackSubmit cfg arg s).2.menu = false ∧
    (arg.is_multi = true → (callbackSubmit cfg arg s).2.inputValue = some "") ∧
    (callbackSubmit cfg arg s).2.selectedOption = some arg ∧
    (∀ o, arg = .one o → cfg.edit_after_submit = "concat" →
      (callbackSubmit cfg arg s).2.inputValue =
        some (s.inputValue.toJs ++ " " ++ o.label)) := by
  refine ⟨by simp [callbackSubmit, h], ?_, by simp [callbackSubmit], ?_⟩
  · intro hm
    simp [callbackSubmit, h, hm]
  · rintro o rfl hmode
    simp [callbackSubmit, h, hmode, OptArg.is_multi, editInput, OptArg.labelAttr,
      JStr.toJs]

/-- Witness for C3 amended: concrete single-select concat submit with the
clear flag set. -/
theorem C3_amended_clear_on_submit_witness :
    (callbackSubmit ⟨true, "concat"⟩ (.one ⟨"x", "Bar"⟩)
        { menu := true, selectedOption := none, selectedOptionList := [],
          inputValue := some "foo" }).2.menu = false ∧
    (callbackSubmit ⟨true, "concat"⟩ (.one ⟨"x", "Bar"⟩)
        { menu := true, selectedOption := none, selectedOptionList := [],
          inputValue := some "foo" }).2.inputValue = some "foo Bar" := by
  have h := C3_amended_clear_on_submit ⟨true, "concat"⟩ (.one ⟨"x", "Bar"⟩)
    { menu := true, selectedOption := none, selectedOptionList := [],
      inputValue := some "foo" } rfl
  exact ⟨h.1, h.2.2.2 ⟨"x", "Bar"⟩ rfl rfl⟩

/-! ## Theorems about the aggregator -/

/-- C8: for every event, the aggregator builds one new global state (the
action field always records the event) and pushes exactly that state to the
bridge, exactly once. -/
theorem C8_push_once (s : GlobalState) (e : AggEvent) :
    (streamlitReturnGlobalFn s e).2 = [(streamlitReturnGlobalFn s e).1] ∧
    (streamlitReturnGlobalFn s e).1.action = some e := by
  refine ⟨rfl, ?_⟩
  unfold streamlitReturnGlobalFn
  split <;> [skip; split] <;> rfl

/-- C10: search, button-click, header-click and footer-click events never
touch the value list; only the action field of the aggregate changes. -/
theorem C10_nonwriting_kinds (s : GlobalState) (e : AggEvent)
    (h : e.interaction = .search ∨ e.interaction = .buttonClick ∨
         e.interaction = .headerClick ∨ e.interaction = .footerClick) :
    (stepAgg s e).valueList = s.valueList ∧ (stepAgg s e).action = some e := by
  rcases h with h | h | h | h <;>
    simp [stepAgg, streamlitReturnGlobalFn, h]

/-- Witness for C10: a header click leaves the single configured slot as it
was. -/
theorem C10_nonwriting_kinds_witness :
    (stepAgg (initGlobal [.vstr "a"]) ⟨.headerClick, .vstr "hd", -1⟩).valueList
      = [Value.vstr "a"] ∧
    (stepAgg (initGlobal [.vstr "a"]) ⟨.headerClick, .vstr "hd", -1⟩).action
      = some ⟨.headerClick, .vstr "hd", -1⟩ := by
  have h := C10_nonwriting_kinds (initGlobal [.vstr "a"])
    ⟨.headerClick, .vstr "hd", -1⟩ (Or.inr (Or.inr (Or.inl rfl)))
  exact ⟨h.1, h.2⟩

/-- C5: a reset event for an in-range index rewrites exactly slot `i`: it
becomes the empty list when the prior slot value has a nonzero length and
`null` otherwise; every other slot keeps its prior value. -/
theorem C5_reset_slot (s : GlobalState) (i : Nat) (v : Value)
    (hi : i < s.valueList.length) :
    ((stepAgg s ⟨.reset, v, (i : Int)⟩).valueList.getD i .vunset =
        (if hasLength (s.valueList.getD i .vunset) then Value.vlist [] else Value.vnull)) ∧
    (∀ j, j ≠ i →
      (stepAgg s ⟨.reset, v, (i : Int)⟩).valueList.getD j .vunset =
        s.valueList.getD j .vunset) := by
  have hset : (stepAgg s ⟨.reset, v, (i : Int)⟩).valueList =
      s.valueList.set i
        (if hasLength (s.valueList.getD i .vunset) then Value.vlist [] else Value.vnull) := by
    simp [stepAgg, streamlitReturnGlobalFn, jsAssign, jsGet, hi, Int.toNat_ofNat,
      show ¬((i : Int) < 0) from by omega, List.getD_eq_getElem?_getD,
      List.getElem?_eq_getElem hi]
  constructor
  · rw [hset]
    rw [List.getD_eq_getElem?_getD, List.getElem?_set_self (by simpa using hi)]
    simp
  · intro j hj
    rw [hset]
    rw [List.getD_eq_getElem?_getD, List.getElem?_set_ne (by omega)]
    simp [List.getD_eq_getElem?_getD]

/-- Witness for C5: resetting slot 0 of a two-slot list with a nonempty
string empties it to the array shape and leaves slot 1 alone. -/
theorem C5_reset_slot_witness :
    (stepAgg { action := none, valueList := [.vstr "abc", .vstr "keep"] }
        ⟨.reset, .vstr "", (0 : Int)⟩).valueList.getD 0 .vunset = Value.vlist [] ∧
    (stepAgg { action := none, valueList := [.vstr "abc", .vstr "keep"] }
        ⟨.reset, .vstr "", (0 : Int)⟩).valueList.getD 1 .vunset = Value.vstr "keep" := by
  have h := C5_reset_slot { action := none, valueList := [.vstr "abc", .vstr "keep"] }
    0 (.vstr "") (by decide)
  exact ⟨h.1, h.2 1 (by decide)⟩

/-- An in-range JS write is an ordinary list update, so it keeps the length. -/
theorem jsAssign_length_of_lt (l : List Value) (i : Int) (v : Value)
    (h0 : 0 ≤ i) (h : i < (l.length : Int)) :
    (jsAssign l i v).length = l.length := by
  have hn : i.toNat < l.length := by omega
  simp [jsAssign, show ¬(i < 0) from by omega, hn]

/-- One well-formed aggregator step keeps the value-list length. -/
theorem stepAgg_length (s : GlobalState) (e : AggEvent)
    (h : WellFormedEvent s.valueList.length e) :
    (stepAgg s e).valueList.length = s.valueList.length := by
  cases hi : e.interaction <;>
    simp [WellFormedEvent, hi] at h <;>
    simp [stepAgg, streamlitReturnGlobalFn, hi] <;>
    exact jsAssign_length_of_lt _ _ _ h.1 h.2

/-- C1: for every configuration of `N ≥ 0` instances and every sequence of
events the wiring can deliver, the value list of the aggregate keeps length
exactly `N`. -/
theorem C1_value_list_length (defaults : List Value) (events : List AggEvent)
    (h : ∀ e ∈ events, WellFormedEvent defaults.length e) :
    (runAggregator defaults events).valueList.length = defaults.length := by
  suffices H : ∀ s : GlobalState, s.valueList.length = defaults.length →
      (events.foldl stepAgg s).valueList.length = defaults.length by
    exact H (initGlobal defaults) (by simp [initGlobal])
  induction events with
  | nil => intro s hs; simpa using hs
  | cons e rest ih =>
      intro s hs
      have he : WellFormedEvent s.valueList.length e := by
        rw [hs]; exact h e (List.mem_cons_self e rest)
      have hrest : ∀ e' ∈ rest, WellFormedEvent defaults.length e' :=
        fun e' he' => h e' (List.mem_cons_of_mem e he')
      exact (fun H => H) (ih hrest (stepAgg s e) (by rw [stepAgg_length s e he, hs]))

/-- Witness for C1: two instances, a submit, a reset and a header click keep
two slots. -/
theorem C1_value_list_length_witness :
    (runAggregator [.vnull, .vlist []]
      [⟨.submit, .vstr "a", 0⟩, ⟨.reset, .vstr "", 1⟩,
       ⟨.headerClick, .vstr "hd", -1⟩]).valueList.length = 2 :=
  C1_value_list_length [.vnull, .vlist []]
    [⟨.submit, .vstr "a", 0⟩, ⟨.reset, .vstr "", 1⟩, ⟨.headerClick, .vstr "hd", -1⟩]
    (by decide)

/-- The shape constraint the emitting side puts on the writing events: a
submit event carries a value of the shape prescribed by the multiplicity flag
of its instance (the label string in single mode, the label array in multi
mode), and a simple-value event carries the plain string of the datetime
input, whose instance is single-mode. -/
def EventShapeOk (flags : List Bool) (e : AggEvent) : Prop :=
  (e.interaction = .submit ∨ e.interaction = .simpleValue) →
    shapeMatchesB (flags.getD e.index.toNat false) e.value = true

instance (flags : List Bool) (e : AggEvent) : Decidable (EventShapeOk flags e) := by
  unfold EventShapeOk
  infer_instance

/-- A value of the prescribed shape is also of the loosened shape. -/
theorem looseShape_of_matches (m : Bool) (v : Value)
    (h : shapeMatchesB m v = true) : looseShape m v = true := by
  simp [looseShape, h]

/-- `null` and the empty array are always of the loosened shape. -/
theorem looseShape_empty (m : Bool) (v : Value)
    (h : v = .vnull ∨ v = .vlist []) : looseShape m v = true := by
  rcases h with rfl | rfl <;> simp [looseShape]

/-- Writing a loosened-shape value into one slot keeps every slot of the list
loosened-shape. -/
theorem set_slot_looseShape (flags : List Bool) (l : List Value) (k : Nat)
    (v : Value) (hv : looseShape (flags.getD k false) v = true)
    (hs : ∀ i, i < l.length → looseShape (flags.getD i false) (l.getD i .vunset) = true) :
    ∀ i, i < (l.set k v).length →
      looseShape (flags.getD i false) ((l.set k v).getD i .vunset) = true := by
  intro i hlen
  rw [List.length_set] at hlen
  by_cases hik : i = k
  · subst hik
    rw [List.getD_eq_getElem?_getD (l.set i v) i,
      List.getElem?_set_self (by simpa using hlen)]
    simpa using hv
  · rw [List.getD_eq_getElem?_getD (l.set k v) i,
      List.getElem?_set_ne (by omega : k ≠ i),
      ← List.getD_eq_getElem?_getD l i]
    exact hs i hlen

/-- One well-formed, shape-consistent aggregator step keeps every slot of the
value list in the loosened shape of its instance. -/
theorem stepAgg_looseShape (flags : List Bool) (s : GlobalState) (e : AggEvent)
    (hwf : WellFormedEvent s.valueList.length e)
    (hes : EventShapeOk flags e)
    (hs : ∀ i, i < s.valueList.length →
      looseShape (flags.getD i false) (s.valueList.getD i .vunset) = true) :
    ∀ i, i < (stepAgg s e).valueList.length →
      looseShape (flags.getD i false) ((stepAgg s e).valueList.getD i .vunset) = true := by
  cases hi : e.interaction
  case search | buttonClick | headerClick | footerClick =>
    simpa [stepAgg, streamlitReturnGlobalFn, hi] using hs
  case submit =>
    simp only [WellFormedEvent, hi] at hwf
    have hset : (stepAgg s e).valueList = s.valueList.set e.index.toNat e.value := by
      simp [stepAgg, streamlitReturnGlobalFn, hi, jsAssign,
        show ¬(e.index < 0) from by omega,
        show e.index.toNat < s.valueList.length from by omega]
    rw [hset]
    exact set_slot_looseShape flags s.valueList e.index.toNat e.value
      (looseShape_of_matches _ _ (hes (Or.inl hi))) hs
  case simpleValue =>
    simp only [WellFormedEvent, hi] at hwf
    have hset : (stepAgg s e).valueList = s.valueList.set e.index.toNat e.value := by
      simp [stepAgg, streamlitReturnGlobalFn, hi, jsAssign,
        show ¬(e.index < 0) from by omega,
        show e.index.toNat < s.valueList.length from by omega]
    rw [hset]
    exact set_slot_looseShape flags s.valueList e.index.toNat e.value
      (looseShape_of_matches _ _ (hes (Or.inr hi))) hs
  case reset =>
    simp only [WellFormedEvent, hi] at hwf
    have hset : (stepAgg s e).valueList = s.valueList.set e.index.toNat
        (if hasLength (jsGet s.valueList e.index) then Value.vlist [] else Value.vnull) := by
      simp [stepAgg, streamlitReturnGlobalFn, hi, jsAssign,
        show ¬(e.index < 0) from by omega,
        show e.index.toNat < s.valueList.length from by omega]
    rw [hset]
    refine set_slot_looseShape flags s.valueList e.index.toNat _ ?_ hs
    split
    · exact looseShape_empty _ _ (Or.inr rfl)
    · exact looseShape_empty _ _ (Or.inl rfl)

/-- C4 as stated is false on the code: a single-select instance (multiplicity
flag false) whose slot holds the nonempty string `abc` gets the empty array
written into its slot by a reset event, and the empty array is not a
single-select shape. -/
theorem C4_counterexample :
    (∀ e ∈ ([⟨.submit, .vstr "abc", 0⟩, ⟨.reset, .vstr "", 0⟩] : List AggEvent),
      WellFormedEvent 1 e ∧ EventShapeOk [false] e) ∧
    (runAggregator [.vnull]
      [⟨.submit, .vstr "abc", 0⟩, ⟨.reset, .vstr "", 0⟩]).valueList = [Value.vlist []] ∧
    shapeMatchesB false (Value.vlist []) = false := by
  refine ⟨by decide, rfl, rfl⟩

/-- C4 amended: after every well-formed, shape-consistent sequence of events
each slot of the value list is `null`, the empty array, or of the shape
prescribed by the multiplicity flag of its instance (reset may leave the
empty array in a single-select slot or `null` in a multi-select one, and a
default may be `null` in either mode). -/
theorem C4_amended_slot_shapes (flags : List Bool) (defaults : List Value)
    (events : List AggEvent)
    (hdfl : ∀ i, i < defaults.length →
      looseShape (flags.getD i false) (nullishToNull (defaults.getD i .vunset)) = true)
    (hev : ∀ e ∈ events, WellFormedEvent defaults.length e ∧ EventShapeOk flags e) :
    ∀ i, i < (runAggregator defaults events).valueList.length →
      looseShape (flags.getD i false)
        ((runAggregator defaults events).valueList.getD i .vunset) = true := by
  suffices H : ∀ s : GlobalState, s.valueList.length = defaults.length →
      (∀ i, i < s.valueList.length →
        looseShape (flags.getD i false) (s.valueList.getD i .vunset) = true) →
      ∀ i, i < (events.foldl stepAgg s).valueList.length →
        looseShape (flags.getD i false)
          ((events.foldl stepAgg s).valueList.getD i .vunset) = true by
    refine H (initGlobal defaults) (by simp [initGlobal]) ?_
    intro i hi2
    simp only [initGlobal, List.length_map] at hi2
    have hsome : defaults[i]? = some defaults[i] := List.getElem?_eq_getElem hi2
    have h' := hdfl i hi2
    rw [List.getD_eq_getElem?_getD defaults i, hsome] at h'
    simp only [initGlobal]
    rw [List.getD_eq_getElem?_getD (defaults.map nullishToNull) i, List.getElem?_map,
      hsome]
    simpa using h'
  clear hdfl
  induction events with
  | nil => intro s _ hs; simpa using hs
  | cons e rest ih =>
      intro s hlen hs
      have he := hev e (List.mem_cons_self e rest)
      have hrest : ∀ e' ∈ rest, WellFormedEvent defaults.length e' ∧ EventShapeOk flags e' :=
        fun e' he' => hev e' (List.mem_cons_of_mem e he')
      have hwf : WellFormedEvent s.valueList.length e := by rw [hlen]; exact he.1
      refine ih hrest (stepAgg s e) ?_ (stepAgg_looseShape flags s e hwf he.2 hs)
      rw [stepAgg_length s e hwf, hlen]

/-- Witness for C4 amended: the counterexample trace itself satisfies the
loosened invariant. -/
theorem C4_amended_slot_shapes_witness :
    looseShape false ((runAggregator [.vnull]
      [⟨.submit, .vstr "abc", 0⟩, ⟨.reset, .vstr "", 0⟩]).valueList.getD 0 .vunset) = true :=
  C4_amended_slot_shapes [false] [.vnull]
    [⟨.submit, .vstr "abc", 0⟩, ⟨.reset, .vstr "", 0⟩]
    (by decide) (by decide) 0 (by decide)

/-! ## Theorems about the debounce logic -/

/-- C2 as stated is false on the code: with debounce 300 the keystrokes at
times 0, 290 and 580 are each less than 300 ms after the previous one, yet
two search events fire: the timer created by the first keystroke survives the
second one (which is not within the final 10 ms cancellation window) and
fires mid-burst with the text of the second keystroke, and the third
keystroke then schedules a second timer. The emissions are `ab` and `abc`,
not the single last text. -/
theorem C2_counterexample :
    consecGapsLt 300 [(0, "a"), (290, "ab"), (580, "abc")] = true ∧
    searchEmissions 300 idleState [(0, "a"), (290, "ab"), (580, "abc")]
      = [some "ab", some "abc"] ∧
    searchEmissions 300 idleState [(0, "a"), (290, "ab"), (580, "abc")]
      ≠ [some (lastText "a" [(290, "ab"), (580, "abc")])] := by
  refine ⟨rfl, rfl, by decide⟩

/-- Invariant of a coalesced burst: the single timer created by the first
keystroke of the burst (at time `t0`, timer id 0) is still pending, the ref
carries the latest text together with the original timeout record, and no
search event has been emitted yet. -/
def burstInv (d t0 : Nat) (v : String) (s : SBState) : Prop :=
  s.lsu = some ⟨v, 0, t0⟩ ∧ s.timers = [⟨0, t0 + d, true⟩] ∧
    s.nextId = 1 ∧ s.log = []

/-- The first keystroke of a burst establishes the burst invariant. -/
theorem burst_base (d t0 : Nat) (x : String) (w : State) :
    burstInv d t0 x (keystroke d (initSB w) (t0, x)) := by
  simp [burstInv, keystroke, fireDue, initSB, callbackSearch]

/-- A keystroke at most `d - 10` ms after the first one keeps the burst
invariant, refreshing only the text of the ref. -/
theorem burst_step (d t0 t : Nat) (v x : String) (s : SBState)
    (hinv : burstInv d t0 v s) (_h1 : t0 ≤ t)
    (h2 : (t : Int) - (t0 : Int) ≤ (d : Int) - 10) :
    burstInv d t0 x (keystroke d s (t, x)) := by
  obtain ⟨hl, ht, hn, hg⟩ := hinv
  have hnotdue : ¬(t0 + d ≤ t) := by omega
  have hkeep : ¬((t : Int) - (t0 : Int) > (d : Int) - 10) := by omega
  simp [burstInv, keystroke, callbackSearch, fireDue, hl, ht, hn, hg, hnotdue, hkeep]

/-- Every keystroke of the tail of a burst keeps the invariant, and the ref
ends up carrying the text of the last keystroke. -/
theorem burst_fold (d t0 : Nat) (rest : List (Nat × String)) :
    ∀ (v : String) (s : SBState), burstInv d t0 v s →
      (∀ p ∈ rest, t0 ≤ p.1 ∧ (p.1 : Int) - (t0 : Int) ≤ (d : Int) - 10) →
      burstInv d t0 (lastText v rest) (rest.foldl (keystroke d) s) := by
  induction rest with
  | nil => intro v s h _; simpa [lastText] using h
  | cons p rest ih =>
      intro v s h hall
      have hp := hall p (List.mem_cons_self p rest)
      have hstep := burst_step d t0 p.1 v p.2 s h hp.1 hp.2
      simpa [lastText] using
        ih p.2 _ hstep (fun q hq => hall q (List.mem_cons_of_mem p hq))

/-- C2 amended: for every burst of keystrokes whose later keystrokes all
happen no earlier than the first and at most (debounce − 10) ms after the
first, exactly one search event fires, carrying the text of the last
keystroke of the burst. -/
theorem C2_amended_burst_single_emission (d t0 : Nat) (x0 : String)
    (rest : List (Nat × String)) (w : State)
    (hrest : ∀ p ∈ rest, t0 ≤ p.1 ∧ (p.1 : Int) - (t0 : Int) ≤ (d : Int) - 10) :
    searchEmissions d w ((t0, x0) :: rest) = [some (lastText x0 rest)] := by
  have hb := burst_base d t0 x0 w
  have hf := burst_fold d t0 rest x0 _ hb hrest
  obtain ⟨hl, ht, hn, hg⟩ := hf
  simp [searchEmissions, runSearchTrace, flush, List.foldl_cons, ht, hl, hg,
    Timer.alive]

/-- Witness for C2 amended: three keystrokes at 0, 100 and 200 ms with
debounce 300 emit the single search text `abc`. -/
theorem C2_amended_burst_single_emission_witness :
    searchEmissions 300 idleState [(0, "a"), (100, "ab"), (200, "abc")]
      = [some "abc"] :=
  C2_amended_burst_single_emission 300 0 "a" [(100, "ab"), (200, "abc")]
    idleState (by decide)

end Searchbox
